import Mathlib

/-!
Verification of the temperature-history buffer and ASCII graph renderer of
the system-monitor dashboard (`src/system_monitor/dashboard.py`).

The embedding below mirrors the Python source:
* `update_temperature_history` keeps per-series lists of `(timestamp, value)`
  samples, appending a sample only when the value is present and trimming the
  list to the last `max_history_points` entries (Python slice `lst[-c:]`,
  including its `c = 0` quirk where `lst[-0:]` is the whole list).
* `create_temperature_graph` turns a series snapshot into a `height`-row grid
  of filled/empty cells with threshold-based colors, an optional timeline, and
  a Current/Min/Max summary.

Temperatures are integers in the source (the sensor parsers return `int`);
timestamps are modelled as rationals, and the per-row interpolated threshold
(a Python float division) is modelled exactly as a rational.
-/

namespace SystemMonitor

/-- One `(timestamp, temperature)` entry of a history list. -/
structure Sample where
  timestamp : ℚ
  value : ℤ
deriving Repr, DecidableEq

/-- Python `lst[-c:]`: the last `c` elements, except that `lst[-0:]` is the
whole list. -/
def takeLast {α : Type} (c : Nat) (l : List α) : List α :=
  if c = 0 then l else l.drop (l.length - c)

/-- One branch of `update_temperature_history`: append `(t, v)` when `v` is
present, then keep only the last `maxPoints` entries when the length exceeds
`maxPoints`. -/
def appendBounded (maxPoints : Nat) (series : List Sample) (t : ℚ)
    (v : Option ℤ) : List Sample :=
  match v with
  | none => series
  | some temp =>
      let s := series ++ [⟨t, temp⟩]
      if maxPoints < s.length then takeLast maxPoints s else s

/-- The `temp_history` dictionary: one series per tracked metric. -/
structure TempHistory where
  gpu : List Sample
  cpu : List Sample
deriving Repr, DecidableEq

/-- `update_temperature_history(gpu_temp, cpu_temp)`: sequentially update the
"gpu" series (when `gpu_temp` is not `None`) and then the "cpu" series (when
`cpu_temp` is not `None`), trimming each to the last `maxPoints` entries. -/
def update_temperature_history (maxPoints : Nat) (h : TempHistory) (t : ℚ)
    (gpuTemp cpuTemp : Option ℤ) : TempHistory :=
  let h1 :=
    match gpuTemp with
    | none => h
    | some g =>
        let s := h.gpu ++ [⟨t, g⟩]
        { h with gpu := if maxPoints < s.length then takeLast maxPoints s else s }
  match cpuTemp with
  | none => h1
  | some c =>
      let s := h1.cpu ++ [⟨t, c⟩]
      { h1 with cpu := if maxPoints < s.length then takeLast maxPoints s else s }

/-- Dictionary lookup `self.temp_history[temp_type]`: only the keys "gpu" and
"cpu" exist. -/
def lookupSeries (h : TempHistory) (name : String) : Option (List Sample) :=
  if name = "gpu" then some h.gpu
  else if name = "cpu" then some h.cpu
  else none

/-- Rich styles used by the renderer for filled cells and the current value. -/
inductive Color
  | green
  | yellow
  | red
deriving Repr, DecidableEq

/-- One character cell of the graph: a colored block or a blank. -/
inductive Cell
  | filled (c : Color)
  | empty
deriving Repr, DecidableEq

/-- Python `min(xs)` on a nonempty list (`0` on `[]`, which the renderer never
reaches). -/
def listMin : List ℤ → ℤ
  | [] => 0
  | x :: xs => xs.foldl min x

/-- Python `max(xs)` on a nonempty list (`0` on `[]`, which the renderer never
reaches). -/
def listMax : List ℤ → ℤ
  | [] => 0
  | x :: xs => xs.foldl max x

/-- Color of a filled cell: red when `temp >= critical`, else yellow when
`temp >= warning`, else green. -/
def colorFor (warning critical temp : ℤ) : Color :=
  if critical ≤ temp then Color.red
  else if warning ≤ temp then Color.yellow
  else Color.green

/-- One cell of a grid row: a colored block when `temp >= threshold`, else a
blank. -/
def cellFor (warning critical : ℤ) (threshold : ℚ) (temp : ℤ) : Cell :=
  if threshold ≤ (temp : ℚ) then Cell.filled (colorFor warning critical temp)
  else Cell.empty

/-- Color of the "Current" value in the summary line: green when strictly below
warning, yellow when strictly below critical, else red. -/
def currentColorFor (warning critical temp : ℤ) : Color :=
  if temp < warning then Color.green
  else if temp < critical then Color.yellow
  else Color.red

/-- The structured content of a rendered graph: the grid rows (each a
threshold label plus its cells), the optional timeline (tick pattern and
sample count), and the Current/Min/Max summary. -/
structure GraphData where
  rows : List (ℚ × List Cell)
  timeline : Option (List Bool × Nat)
  current : ℤ
  currentColor : Color
  minTemp : ℤ
  maxTemp : ℤ
deriving Repr, DecidableEq

/-- The three possible outputs of `create_temperature_graph`. -/
inductive GraphResult
  | noData
  | collecting
  | graph (g : GraphData)
deriving Repr, DecidableEq

/-- The grid rows of a render result (empty for the placeholder outputs). -/
def GraphResult.rows : GraphResult → List (ℚ × List Cell)
  | .graph g => g.rows
  | _ => []

/-- `create_temperature_graph(temp_type, height, length)` after the dictionary
lookup: `none` stands for a missing key. Mirrors the source line by line:
placeholders for missing/empty/singleton histories, min/max over the whole
history, unit range substitution for a flat history, per-row interpolated
thresholds, last-`length` visible window, timeline when at least 10 samples,
and the Current/Min/Max summary. -/
def create_temperature_graph (warning critical : ℤ)
    (history? : Option (List Sample)) (height length : Nat) : GraphResult :=
  match history? with
  | none => GraphResult.noData
  | some history =>
    if history.isEmpty then GraphResult.noData
    else if history.length < 2 then GraphResult.collecting
    else
      let temps := history.map (fun s => s.value)
      let min_temp := listMin temps
      let max_temp := listMax temps
      let temp_range : ℤ := if max_temp = min_temp then 1 else max_temp - min_temp
      let visible := takeLast length history
      let rows := (List.range height).map (fun (i : Nat) =>
        let threshold : ℚ :=
          (min_temp : ℚ) + (temp_range : ℚ) * ((height : ℚ) - (i : ℚ) - 1) / (height : ℚ)
        (threshold, visible.map (fun s => cellFor warning critical threshold s.value)))
      let timeline :=
        if 10 ≤ history.length then
          some (((List.range (min length history.length)).map (fun i => i % 10 == 0)),
            history.length)
        else none
      let current := temps.getLastD 0
      GraphResult.graph
        { rows := rows
          timeline := timeline
          current := current
          currentColor := currentColorFor warning critical current
          minTemp := min_temp
          maxTemp := max_temp }

/-- The renderer as called with a series name: `temp_type not in
self.temp_history or not self.temp_history[temp_type]` yields the "no data"
placeholder. -/
def create_temperature_graph_named (warning critical : ℤ) (store : TempHistory)
    (name : String) (height length : Nat) : GraphResult :=
  create_temperature_graph warning critical (lookupSeries store name) height length

/-- Default `max_history_points` from `config.py`. -/
def config_max_history_points : Nat := 100

/-- Default `temperature_thresholds.warning` from `config.py`. -/
def config_temperature_warning_threshold : ℤ := 70

/-- Default `temperature_thresholds.critical` from `config.py`. -/
def config_temperature_critical_threshold : ℤ := 80

/-- Iterated non-null appends to one series, oldest first. -/
def appendAll (maxPoints : Nat) (init : List Sample)
    (ps : List (ℚ × ℤ)) : List Sample :=
  ps.foldl (fun acc p => appendBounded maxPoints acc p.1 (some p.2)) init

/-- Minimum value of a series snapshot (over the whole retained history). -/
def seriesMin (l : List Sample) : ℤ := listMin (l.map (fun s => s.value))

/-- Maximum value of a series snapshot (over the whole retained history). -/
def seriesMax (l : List Sample) : ℤ := listMax (l.map (fun s => s.value))

/-- The vertical range used for scaling, with the unit substitution for a flat
series. -/
def seriesRange (l : List Sample) : ℤ :=
  if seriesMax l = seriesMin l then 1 else seriesMax l - seriesMin l

/-- The spec's row-threshold formula, written from its words:
`threshold(r) = minVal + range * (height - r - 1) / height`. -/
def specRowThreshold (l : List Sample) (height r : Nat) : ℚ :=
  (seriesMin l : ℚ) + (seriesRange l : ℚ) * ((height : ℚ) - (r : ℚ) - 1) / (height : ℚ)

/-! ### Helper lemmas: the bounded buffer -/

/-- The right-take keeps `min n l.length` elements. -/
lemma rtake_length {α : Type} (l : List α) (n : Nat) :
    (l.rtake n).length = min n l.length := by
  simp only [List.rtake, List.length_drop]
  omega

/-- Right-taking at least the whole list keeps it unchanged. -/
lemma rtake_all {α : Type} (l : List α) (n : Nat) (h : l.length ≤ n) :
    l.rtake n = l := by
  simp [List.rtake, Nat.sub_eq_zero_of_le h]

/-- Left-takes absorb an inner take of the same size after an append. -/
lemma take_append_take {α : Type} (n : Nat) (as bs : List α) :
    (as ++ bs.take n).take n = (as ++ bs).take n := by
  rw [List.take_append_eq_append_take, List.take_append_eq_append_take, List.take_take]
  have : min (n - as.length) n = n - as.length := by omega
  rw [this]

/-- Right-takes absorb an inner right-take of the same size before an append. -/
lemma rtake_append_rtake {α : Type} (n : Nat) (xs ys : List α) :
    (xs.rtake n ++ ys).rtake n = (xs ++ ys).rtake n := by
  simp only [List.rtake_eq_reverse_take_reverse, List.reverse_append, List.reverse_reverse]
  rw [take_append_take]

/-- A non-null bounded append is a right-take of the extended series, provided
the capacity is positive. -/
lemma appendBounded_some_eq_rtake (C : Nat) (hC : 1 ≤ C) (acc : List Sample)
    (t : ℚ) (v : ℤ) :
    appendBounded C acc t (some v) = (acc ++ [Sample.mk t v]).rtake C := by
  simp only [appendBounded]
  by_cases h : C < (acc ++ [Sample.mk t v]).length
  · rw [if_pos h]
    simp only [takeLast]
    rw [if_neg (by omega)]
    rfl
  · rw [if_neg h]
    exact (rtake_all _ _ (by omega)).symm

/-- Iterated non-null appends amount to a single right-take of all appended
samples, provided the capacity is positive. -/
lemma appendAll_eq_rtake (C : Nat) (hC : 1 ≤ C) (ps : List (ℚ × ℤ)) :
    ∀ init : List Sample, init.length ≤ C →
      appendAll C init ps
        = (init ++ ps.map (fun p => Sample.mk p.1 p.2)).rtake C := by
  induction ps with
  | nil =>
      intro init h
      simp [appendAll, rtake_all _ _ (by simpa using h)]
  | cons p rest ih =>
      intro init h
      have hstep := appendBounded_some_eq_rtake C hC init p.1 p.2
      have hlen : ((init ++ [Sample.mk p.1 p.2]).rtake C).length ≤ C := by
        rw [rtake_length]; omega
      calc appendAll C init (p :: rest)
          = appendAll C (appendBounded C init p.1 (some p.2)) rest := by
            simp [appendAll]
        _ = ((init ++ [Sample.mk p.1 p.2]).rtake C
              ++ rest.map (fun p => Sample.mk p.1 p.2)).rtake C := by
            rw [hstep]; exact ih _ hlen
        _ = ((init ++ [Sample.mk p.1 p.2]
              ++ rest.map (fun p => Sample.mk p.1 p.2))).rtake C := by
            rw [rtake_append_rtake]
        _ = (init ++ (p :: rest).map (fun p => Sample.mk p.1 p.2)).rtake C := by
            simp

/-! ### Claim C1 -/

/-- Claim C1: for every sequence of more than `C` non-null appends to an
initially empty series (capacity `C = max_history_points ≥ 1`), the resulting
series has length exactly `C` and holds exactly the last `C` appended samples
in insertion order; moreover any single append keeps the length at most `C`. -/
theorem C1_fifo_eviction (C : Nat) (hC : 1 ≤ C) (ps : List (ℚ × ℤ))
    (hlen : C < ps.length) :
    (appendAll C [] ps).length = C ∧
    appendAll C [] ps
      = (ps.map (fun p => Sample.mk p.1 p.2)).drop (ps.length - C) ∧
    ∀ (series : List Sample) (t : ℚ) (v : Option ℤ), series.length ≤ C →
      (appendBounded C series t v).length ≤ C := by
  have hmain := appendAll_eq_rtake C hC ps [] (by simp)
  simp only [List.nil_append] at hmain
  refine ⟨?_, ?_, ?_⟩
  · rw [hmain, rtake_length, List.length_map]
    omega
  · rw [hmain]
    simp [List.rtake, List.length_map]
  · intro series t v hs
    cases v with
    | none => simpa [appendBounded] using hs
    | some temp =>
        rw [appendBounded_some_eq_rtake C hC series t temp, rtake_length]
        omega

/-- Witness for C1: three appends into a capacity-2 series keep exactly the
last two samples. -/
theorem C1_fifo_eviction_witness :
    (appendAll 2 [] [((0:ℚ), (1:ℤ)), (1, 2), (2, 3)]).length = 2 ∧
    appendAll 2 [] [((0:ℚ), (1:ℤ)), (1, 2), (2, 3)]
      = (([((0:ℚ), (1:ℤ)), (1, 2), (2, 3)]).map (fun p => Sample.mk p.1 p.2)).drop
          (([((0:ℚ), (1:ℤ)), (1, 2), (2, 3)]).length - 2) ∧
    ∀ (series : List Sample) (t : ℚ) (v : Option ℤ), series.length ≤ 2 →
      (appendBounded 2 series t v).length ≤ 2 :=
  C1_fifo_eviction 2 (by norm_num) [((0:ℚ), (1:ℤ)), (1, 2), (2, 3)] (by norm_num)

/-! ### Claims C3 and C10: frame effects of the update -/

/-- Claim C3: appending a null (unavailable) value is a no-op — for every
store state, the snapshot (and hence the size) of each series is identical
before and after the update that passes `None` for it. -/
theorem C3_null_append_noop (mp : Nat) (h : TempHistory) (t : ℚ)
    (gpuTemp cpuTemp : Option ℤ) :
    appendBounded mp h.gpu t none = h.gpu ∧
    (update_temperature_history mp h t none cpuTemp).gpu = h.gpu ∧
    (update_temperature_history mp h t none cpuTemp).gpu.length = h.gpu.length ∧
    (update_temperature_history mp h t gpuTemp none).cpu = h.cpu ∧
    (update_temperature_history mp h t gpuTemp none).cpu.length = h.cpu.length := by
  cases gpuTemp <;> cases cpuTemp <;>
    simp [appendBounded, update_temperature_history]

/-- Claim C10: per-series isolation — one update call changes the "gpu"
series exactly as the bounded append of the gpu value does, and the "cpu"
series exactly as the bounded append of the cpu value does; a `None` value
leaves the other series untouched. -/
theorem C10_series_isolation (mp : Nat) (h : TempHistory) (t : ℚ)
    (gpuTemp cpuTemp : Option ℤ) :
    (update_temperature_history mp h t gpuTemp cpuTemp).gpu
      = appendBounded mp h.gpu t gpuTemp ∧
    (update_temperature_history mp h t gpuTemp cpuTemp).cpu
      = appendBounded mp h.cpu t cpuTemp ∧
    appendBounded mp h.cpu t none = h.cpu ∧
    appendBounded mp h.gpu t none = h.gpu := by
  cases gpuTemp <;> cases cpuTemp <;>
    simp [appendBounded, update_temperature_history]

/-! ### Helper lemmas: the renderer -/

/-- Closed form of `create_temperature_graph` on a snapshot with at least two
samples. -/
lemma graph_eq (w c : ℤ) (l : List Sample) (height length : Nat)
    (hl : 2 ≤ l.length) :
    create_temperature_graph w c (some l) height length
      = GraphResult.graph
          { rows := (List.range height).map (fun i =>
              (specRowThreshold l height i,
               (takeLast length l).map (fun s =>
                 cellFor w c (specRowThreshold l height i) s.value)))
            timeline :=
              if 10 ≤ l.length then
                some ((List.range (min length l.length)).map (fun i => i % 10 == 0),
                  l.length)
              else none
            current := (l.map (fun s => s.value)).getLastD 0
            currentColor :=
              currentColorFor w c ((l.map (fun s => s.value)).getLastD 0)
            minTemp := seriesMin l
            maxTemp := seriesMax l } := by
  have h1 : l.isEmpty = false := by
    cases l with
    | nil => simp at hl
    | cons a as => rfl
  have h2 : ¬ l.length < 2 := by omega
  simp only [create_temperature_graph, h1, Bool.false_eq_true, if_false, h2]
  rfl

/-- Indexing a map over `List.range`. -/
lemma getD_map_range {α : Type} (f : Nat → α) (n i : Nat) (d : α) (h : i < n) :
    ((List.range n).map f).getD i d = f i := by
  rw [List.getD_eq_getElem?_getD, List.getElem?_map, List.getElem?_range h]
  rfl

/-- Indexing a map at an in-bounds position. -/
lemma getD_map_lt {α β : Type} (f : α → β) (l : List α) (j : Nat) (d : β)
    (a : α) (h : j < l.length) :
    (l.map f).getD j d = f (l.getD j a) := by
  rw [List.getD_eq_getElem?_getD, List.getElem?_map,
    List.getElem?_eq_getElem h, List.getD_eq_getElem?_getD,
    List.getElem?_eq_getElem h]
  rfl

/-- Elements of the visible window come from the snapshot. -/
lemma takeLast_mem {α : Type} {a : α} {c : Nat} {l : List α}
    (h : a ∈ takeLast c l) : a ∈ l := by
  unfold takeLast at h
  split at h
  · exact h
  · exact List.drop_subset _ _ h

/-- Length of the visible window for a positive width. -/
lemma takeLast_length_of_pos {α : Type} (c : Nat) (hc : 1 ≤ c) (l : List α) :
    (takeLast c l).length = min c l.length := by
  unfold takeLast
  rw [if_neg (by omega), List.length_drop]
  omega

/-- A fold by `min` never exceeds its seed. -/
lemma foldl_min_le (x : ℤ) (xs : List ℤ) : xs.foldl min x ≤ x := by
  induction xs generalizing x with
  | nil => simp
  | cons y ys ih => exact le_trans (ih (min x y)) (min_le_left x y)

/-- A fold by `max` is at least its seed. -/
lemma le_foldl_max (x : ℤ) (xs : List ℤ) : x ≤ xs.foldl max x := by
  induction xs generalizing x with
  | nil => simp
  | cons y ys ih => exact le_trans (le_max_left x y) (ih (max x y))

/-- On a nonempty list the minimum is at most the maximum. -/
lemma listMin_le_listMax (l : List ℤ) (h : l ≠ []) : listMin l ≤ listMax l := by
  cases l with
  | nil => exact absurd rfl h
  | cons x xs =>
      exact le_trans (foldl_min_le x xs) (le_foldl_max x xs)

/-- Folding `min` over a constant list returns the constant. -/
lemma foldl_min_const (v : ℤ) (xs : List ℤ) (h : ∀ x ∈ xs, x = v) :
    xs.foldl min v = v := by
  induction xs with
  | nil => rfl
  | cons y ys ih =>
      have hy : y = v := h y (by simp)
      have : ∀ x ∈ ys, x = v := fun x hx => h x (by simp [hx])
      simp [hy, ih this]

/-- Folding `max` over a constant list returns the constant. -/
lemma foldl_max_const (v : ℤ) (xs : List ℤ) (h : ∀ x ∈ xs, x = v) :
    xs.foldl max v = v := by
  induction xs with
  | nil => rfl
  | cons y ys ih =>
      have hy : y = v := h y (by simp)
      have : ∀ x ∈ ys, x = v := fun x hx => h x (by simp [hx])
      simp [hy, ih this]

/-- The minimum of a flat snapshot is its constant value. -/
lemma seriesMin_const (l : List Sample) (v : ℤ) (hne : l ≠ [])
    (hv : ∀ s ∈ l, s.value = v) : seriesMin l = v := by
  unfold seriesMin listMin
  cases l with
  | nil => exact absurd rfl hne
  | cons s rest =>
      have hs : s.value = v := hv s (by simp)
      have : ∀ x ∈ rest.map (fun s => s.value), x = v := by
        intro x hx
        obtain ⟨a, ha, rfl⟩ := List.mem_map.mp hx
        exact hv a (by simp [ha])
      simp only [List.map_cons, hs]
      exact foldl_min_const v _ this

/-- The maximum of a flat snapshot is its constant value. -/
lemma seriesMax_const (l : List Sample) (v : ℤ) (hne : l ≠ [])
    (hv : ∀ s ∈ l, s.value = v) : seriesMax l = v := by
  unfold seriesMax listMax
  cases l with
  | nil => exact absurd rfl hne
  | cons s rest =>
      have hs : s.value = v := hv s (by simp)
      have : ∀ x ∈ rest.map (fun s => s.value), x = v := by
        intro x hx
        obtain ⟨a, ha, rfl⟩ := List.mem_map.mp hx
        exact hv a (by simp [ha])
      simp only [List.map_cons, hs]
      exact foldl_max_const v _ this

/-- The substituted range is always positive. -/
lemma seriesRange_pos (l : List Sample) (hne : l ≠ []) : 0 < seriesRange l := by
  unfold seriesRange
  split
  · norm_num
  · rename_i hne2
    have := listMin_le_listMax (l.map (fun s => s.value)) (by simpa using hne)
    unfold seriesMin seriesMax at *
    omega

/-- A concrete two-sample snapshot used by witnesses. -/
def samplePair : List Sample := [Sample.mk 0 10, Sample.mk 1 90]

/-! ### Claims C5 to C9 -/

/-- Claim C5: the vertical scale is computed over the entire retained
snapshot, not just the visible window — `minTemp`, `maxTemp` and all the row
thresholds are unchanged when only the visible-window width changes. -/
theorem C5_scale_from_full_history (w c : ℤ) (l : List Sample)
    (height len1 len2 : Nat) (hl : 2 ≤ l.length) :
    ∃ g1 g2 : GraphData,
      create_temperature_graph w c (some l) height len1 = GraphResult.graph g1 ∧
      create_temperature_graph w c (some l) height len2 = GraphResult.graph g2 ∧
      g1.minTemp = seriesMin l ∧ g1.maxTemp = seriesMax l ∧
      g2.minTemp = g1.minTemp ∧ g2.maxTemp = g1.maxTemp ∧
      g1.rows.map Prod.fst = g2.rows.map Prod.fst := by
  refine ⟨_, _, graph_eq w c l height len1 hl, graph_eq w c l height len2 hl,
    rfl, rfl, rfl, rfl, ?_⟩
  simp [List.map_map, Function.comp]

/-- Witness for C5: widths 40 and 100 give the same scale on a concrete
snapshot. -/
theorem C5_scale_from_full_history_witness :
    2 ≤ samplePair.length ∧
    ∃ g1 g2 : GraphData,
      create_temperature_graph 70 80 (some samplePair) 8 40 = GraphResult.graph g1 ∧
      create_temperature_graph 70 80 (some samplePair) 8 100 = GraphResult.graph g2 ∧
      g1.minTemp = seriesMin samplePair ∧ g1.maxTemp = seriesMax samplePair ∧
      g2.minTemp = g1.minTemp ∧ g2.maxTemp = g1.maxTemp ∧
      g1.rows.map Prod.fst = g2.rows.map Prod.fst :=
  ⟨by decide, C5_scale_from_full_history 70 80 samplePair 8 40 100 (by decide)⟩

/-- Claim C6: the renderer is total on its documented inputs — a missing
series or an empty snapshot yields the "no data" placeholder, a one-sample
snapshot yields the "collecting data" placeholder, an unknown series name is
treated as the empty case, and every snapshot yields one of the three
constructors (never a fault). -/
theorem C6_placeholders (w c : ℤ) (height length : Nat) (store : TempHistory)
    (name : String) (s : Sample) :
    create_temperature_graph w c none height length = GraphResult.noData ∧
    create_temperature_graph w c (some []) height length = GraphResult.noData ∧
    create_temperature_graph w c (some [s]) height length
      = GraphResult.collecting ∧
    (name ≠ "gpu" → name ≠ "cpu" →
      create_temperature_graph_named w c store name height length
        = GraphResult.noData) ∧
    ∀ l : List Sample,
      create_temperature_graph w c (some l) height length = GraphResult.noData ∨
      create_temperature_graph w c (some l) height length
        = GraphResult.collecting ∨
      ∃ g, create_temperature_graph w c (some l) height length
        = GraphResult.graph g := by
  refine ⟨rfl, by simp [create_temperature_graph], ?_, ?_, ?_⟩
  · simp [create_temperature_graph]
  · intro h1 h2
    unfold create_temperature_graph_named lookupSeries
    rw [if_neg h1, if_neg h2]
    rfl
  · intro l
    by_cases hnil : l = []
    · left
      subst hnil
      simp [create_temperature_graph]
    · by_cases hlen : l.length < 2
      · right; left
        have h1 : l.isEmpty = false := by simp [List.isEmpty_iff, hnil]
        simp [create_temperature_graph, h1, hlen]
      · right; right
        exact ⟨_, graph_eq w c l height length (by omega)⟩

/-- Witness for C6: an unknown series name renders the "no data"
placeholder. -/
theorem C6_placeholders_witness :
    create_temperature_graph_named 70 80 (TempHistory.mk [] []) "disk" 8 100
      = GraphResult.noData :=
  (C6_placeholders 70 80 8 100 (TempHistory.mk [] []) "disk"
    (Sample.mk 0 0)).2.2.2.1 (by decide) (by decide)

/-- Claim C7: with a positive width, every grid row draws exactly
`min width snapshotLength` cells — at most `width` when the snapshot is
longer, exactly the snapshot length when it is shorter. -/
theorem C7_visible_columns (w c : ℤ) (l : List Sample) (height length : Nat)
    (hl : 2 ≤ l.length) (hlen : 1 ≤ length) :
    ∃ g, create_temperature_graph w c (some l) height length
        = GraphResult.graph g ∧
      g.rows.length = height ∧
      ∀ row ∈ g.rows, row.2.length = min length l.length := by
  refine ⟨_, graph_eq w c l height length hl, by simp, ?_⟩
  intro row hrow
  obtain ⟨i, hi, rfl⟩ := List.mem_map.mp hrow
  simp [takeLast_length_of_pos length hlen l]

/-- Witness for C7: a width of 50 on a two-sample snapshot draws two cells
per row. -/
theorem C7_visible_columns_witness :
    (2 ≤ samplePair.length ∧ 1 ≤ 50) ∧
    ∃ g, create_temperature_graph 70 80 (some samplePair) 8 50
        = GraphResult.graph g ∧
      g.rows.length = 8 ∧
      ∀ row ∈ g.rows, row.2.length = min 50 samplePair.length :=
  ⟨⟨by decide, by decide⟩,
   C7_visible_columns 70 80 samplePair 8 50 (by decide) (by decide)⟩

/-- The last value of a nonempty snapshot, through the renderer's
`temps[-1]`. -/
lemma map_value_getLastD (l : List Sample) (hne : l ≠ []) :
    ∃ s : Sample, l.getLast? = some s ∧
      (l.map (fun s => s.value)).getLastD 0 = s.value := by
  refine ⟨l.getLast hne, List.getLast?_eq_getLast l hne, ?_⟩
  rw [List.getLastD_eq_getLast?, List.getLast?_map, List.getLast?_eq_getLast l hne]
  rfl

/-- A non-null bounded append always leaves the new sample last. -/
lemma appendBounded_getLast (C : Nat) (series : List Sample) (t : ℚ) (v : ℤ) :
    (appendBounded C series t (some v)).getLast? = some (Sample.mk t v) := by
  simp only [appendBounded]
  split
  · unfold takeLast
    split
    · exact List.getLast?_concat _
    · rw [List.drop_append_of_le_length
        (by simp only [List.length_append, List.length_singleton]; omega)]
      exact List.getLast?_concat _
  · exact List.getLast?_concat _

/-- Claim C8: the summary's "Current" value is the value of the most recently
appended sample (the snapshot's last), for every visible-window width, and it
is followed by the min and max of the retained history. -/
theorem C8_current_is_last (w c : ℤ) (l : List Sample) (height length : Nat)
    (hl : 2 ≤ l.length) :
    ∃ (g : GraphData) (s : Sample),
      create_temperature_graph w c (some l) height length
        = GraphResult.graph g ∧
      l.getLast? = some s ∧
      g.current = s.value ∧
      g.minTemp = seriesMin l ∧
      g.maxTemp = seriesMax l ∧
      ∀ (C : Nat) (series : List Sample) (t : ℚ) (v : ℤ),
        (appendBounded C series t (some v)).getLast? = some (Sample.mk t v) := by
  have hne : l ≠ [] := by
    intro hnil
    rw [hnil] at hl
    simp at hl
  obtain ⟨s, hs1, hs2⟩ := map_value_getLastD l hne
  exact ⟨_, s, graph_eq w c l height length hl, hs1, hs2, rfl, rfl,
    fun C series t v => appendBounded_getLast C series t v⟩

/-- Witness for C8 on a concrete two-sample snapshot. -/
theorem C8_current_is_last_witness :
    2 ≤ samplePair.length ∧
    ∃ (g : GraphData) (s : Sample),
      create_temperature_graph 70 80 (some samplePair) 8 100
        = GraphResult.graph g ∧
      samplePair.getLast? = some s ∧
      g.current = s.value ∧
      g.minTemp = seriesMin samplePair ∧
      g.maxTemp = seriesMax samplePair ∧
      ∀ (C : Nat) (series : List Sample) (t : ℚ) (v : ℤ),
        (appendBounded C series t (some v)).getLast? = some (Sample.mk t v) :=
  ⟨by decide, C8_current_is_last 70 80 samplePair 8 100 (by decide)⟩

/-- Claim C9: row `r`'s threshold equals
`minVal + range * (height - r - 1) / height`, and thresholds strictly
decrease down the grid, so row 0 carries the highest band and the bottom row
the lowest. -/
theorem C9_row_thresholds (w c : ℤ) (l : List Sample) (height length : Nat)
    (hl : 2 ≤ l.length) (i : Nat) (hi : i < height) :
    ∃ g, create_temperature_graph w c (some l) height length
        = GraphResult.graph g ∧
      (g.rows.getD i ((0 : ℚ), ([] : List Cell))).1
        = (seriesMin l : ℚ)
          + (seriesRange l : ℚ) * ((height : ℚ) - (i : ℚ) - 1) / (height : ℚ) ∧
      ∀ j, i < j → j < height →
        (g.rows.getD j ((0 : ℚ), ([] : List Cell))).1
          < (g.rows.getD i ((0 : ℚ), ([] : List Cell))).1 := by
  refine ⟨_, graph_eq w c l height length hl, ?_, ?_⟩
  · rw [GraphData.rows, getD_map_range _ _ _ _ hi]
    rfl
  · intro j hij hj
    rw [GraphData.rows, getD_map_range _ _ _ _ hj, getD_map_range _ _ _ _ hi]
    show specRowThreshold l height j < specRowThreshold l height i
    unfold specRowThreshold
    have hne : l ≠ [] := by
      intro hnil
      rw [hnil] at hl
      simp at hl
    have hr : (0 : ℚ) < (seriesRange l : ℚ) := by
      exact_mod_cast seriesRange_pos l hne
    have hh : (0 : ℚ) < (height : ℚ) := by
      exact_mod_cast Nat.pos_of_ne_zero (by omega)
    have hij2 : (i : ℚ) < (j : ℚ) := by exact_mod_cast hij
    apply add_lt_add_left
    rw [div_lt_div_iff₀ hh hh]
    have h1 : ((height : ℚ) - j - 1) < ((height : ℚ) - i - 1) := by linarith
    exact mul_lt_mul_of_pos_right (mul_lt_mul_of_pos_left h1 hr) hh

/-- Witness for C9: the top row of a concrete graph carries the highest
threshold band. -/
theorem C9_row_thresholds_witness :
    (2 ≤ samplePair.length ∧ 0 < 8) ∧
    ∃ g, create_temperature_graph 70 80 (some samplePair) 8 100
        = GraphResult.graph g ∧
      (g.rows.getD 0 ((0 : ℚ), ([] : List Cell))).1
        = (seriesMin samplePair : ℚ)
          + (seriesRange samplePair : ℚ) * ((8 : ℚ) - (0 : ℚ) - 1) / (8 : ℚ) ∧
      ∀ j, 0 < j → j < 8 →
        (g.rows.getD j ((0 : ℚ), ([] : List Cell))).1
          < (g.rows.getD 0 ((0 : ℚ), ([] : List Cell))).1 :=
  ⟨⟨by decide, by decide⟩,
   C9_row_thresholds 70 80 samplePair 8 100 (by decide) 0 (by decide)⟩

/-! ### Claim C2: flat series -/

/-- Closed form of the grid rows on a flat snapshot: the threshold of row `i`
is `v + (height - i - 1) / height`, so only the bottom row's cells are filled.
-/
lemma flat_graph_rows (w c : ℤ) (l : List Sample) (v : ℤ) (height length : Nat)
    (hl : 2 ≤ l.length) (hv : ∀ s ∈ l, s.value = v) :
    ∃ g, create_temperature_graph w c (some l) height length
        = GraphResult.graph g ∧
      seriesRange l = 1 ∧
      g.rows = (List.range height).map (fun (i : Nat) =>
        ((v : ℚ) + ((height : ℚ) - (i : ℚ) - 1) / (height : ℚ),
         (takeLast length l).map (fun _ =>
           if i = height - 1 then Cell.filled (colorFor w c v) else Cell.empty))) := by
  have hne : l ≠ [] := by
    intro hnil
    rw [hnil] at hl
    simp at hl
  have hmin : seriesMin l = v := seriesMin_const l v hne hv
  have hmax : seriesMax l = v := seriesMax_const l v hne hv
  have hrange : seriesRange l = 1 := by simp [seriesRange, hmin, hmax]
  refine ⟨_, graph_eq w c l height length hl, hrange, ?_⟩
  show (List.range height).map _ = (List.range height).map _
  apply List.map_congr_left
  intro i hi
  have hih : i < height := List.mem_range.mp hi
  have hh : (0 : ℚ) < (height : ℚ) := by
    exact_mod_cast Nat.pos_of_ne_zero (by omega)
  have hthr : specRowThreshold l height i
      = (v : ℚ) + ((height : ℚ) - (i : ℚ) - 1) / (height : ℚ) := by
    unfold specRowThreshold
    rw [hmin, hrange]
    push_cast
    ring
  rw [hthr]
  refine congrArg _ ?_
  apply List.map_congr_left
  intro s hs
  have hsv : s.value = v := hv s (takeLast_mem hs)
  rw [hsv]
  by_cases hib : i = height - 1
  · subst hib
    have hcast : ((height - 1 : Nat) : ℚ) = (height : ℚ) - 1 := by
      have : 1 ≤ height := by omega
      push_cast [this]
      ring
    have hzero : ((height : ℚ) - ((height - 1 : Nat) : ℚ) - 1) / (height : ℚ) = 0 := by
      rw [hcast]
      ring_nf
    rw [if_pos rfl]
    unfold cellFor
    rw [hzero, if_pos (by linarith)]
  · have hlt : (i : ℚ) < (height : ℚ) - 1 := by
      have : i + 1 < height := by omega
      have h2 : ((i + 1 : Nat) : ℚ) < (height : ℚ) := by exact_mod_cast this
      push_cast at h2
      linarith
    have hpos : (0 : ℚ) < ((height : ℚ) - (i : ℚ) - 1) / (height : ℚ) :=
      div_pos (by linarith) hh
    rw [if_neg hib]
    unfold cellFor
    rw [if_neg (by linarith)]

/-- A concrete flat two-sample snapshot. -/
def flatPair : List Sample := [Sample.mk 0 50, Sample.mk 1 50]

/-- Counterexample to C2 as stated: on the flat snapshot `[50, 50]` with an
8-row grid, not every cell of every row is filled (the top rows are entirely
empty, because each non-bottom threshold `50 + (8-i-1)/8` strictly exceeds
50). -/
theorem C2_counterexample :
    ¬ ∀ row ∈ (create_temperature_graph 70 80 (some flatPair) 8 100).rows,
        ∀ cl ∈ row.2, cl ≠ Cell.empty := by
  intro hall
  obtain ⟨g, hg, hrange, hrows⟩ := flat_graph_rows 70 80 flatPair 50 8 100
    (by decide) (by decide)
  have hmem : ((50 : ℚ) + ((8 : ℚ) - ((0 : Nat) : ℚ) - 1) / (8 : ℚ),
      (takeLast 100 flatPair).map (fun _ =>
        if (0 : Nat) = 8 - 1 then Cell.filled (colorFor 70 80 50) else Cell.empty))
      ∈ g.rows := by
    rw [hrows]
    exact List.mem_map.mpr ⟨0, List.mem_range.mpr (by omega), rfl⟩
  have hcell : Cell.empty ∈ (takeLast 100 flatPair).map (fun _ =>
      if (0 : Nat) = 8 - 1 then Cell.filled (colorFor 70 80 50) else Cell.empty) := by
    show Cell.empty ∈ [Cell.empty, Cell.empty]
    simp
  exact hall _ (by rw [hg]; exact hmem) Cell.empty hcell rfl

/-- Claim C2 (amended): on a flat series (at least 2 samples, all values `v`)
the renderer substitutes a unit range (`seriesRange = 1`, no division by
zero), and the bottom row of the grid is fully filled while every row above
it is entirely empty. -/
theorem C2_flat_series_amended (w c : ℤ) (l : List Sample) (v : ℤ)
    (height length : Nat) (hl : 2 ≤ l.length) (hv : ∀ s ∈ l, s.value = v)
    (hh : 1 ≤ height) :
    ∃ g, create_temperature_graph w c (some l) height length
        = GraphResult.graph g ∧
      seriesRange l = 1 ∧
      g.rows.length = height ∧
      (∀ cl ∈ (g.rows.getD (height - 1) ((0 : ℚ), ([] : List Cell))).2,
        cl = Cell.filled (colorFor w c v)) ∧
      ∀ i, i + 1 < height →
        ∀ cl ∈ (g.rows.getD i ((0 : ℚ), ([] : List Cell))).2, cl = Cell.empty := by
  obtain ⟨g, hg, hrange, hrows⟩ := flat_graph_rows w c l v height length hl hv
  refine ⟨g, hg, hrange, ?_, ?_, ?_⟩
  · rw [hrows]
    simp
  · rw [hrows, getD_map_range _ _ _ _ (by omega)]
    intro cl hcl
    obtain ⟨s, hs, rfl⟩ := List.mem_map.mp hcl
    rw [if_pos rfl]
  · intro i hi
    rw [hrows, getD_map_range _ _ _ _ (by omega)]
    intro cl hcl
    obtain ⟨s, hs, rfl⟩ := List.mem_map.mp hcl
    rw [if_neg (by omega)]

/-- Witness for the amended C2 on the flat snapshot `[50, 50]` with an 8-row
grid. -/
theorem C2_flat_series_amended_witness :
    (2 ≤ flatPair.length ∧ (∀ s ∈ flatPair, s.value = 50) ∧ 1 ≤ 8) ∧
    ∃ g, create_temperature_graph 70 80 (some flatPair) 8 100
        = GraphResult.graph g ∧
      seriesRange flatPair = 1 ∧
      g.rows.length = 8 ∧
      (∀ cl ∈ (g.rows.getD (8 - 1) ((0 : ℚ), ([] : List Cell))).2,
        cl = Cell.filled (colorFor 70 80 50)) ∧
      ∀ i, i + 1 < 8 →
        ∀ cl ∈ (g.rows.getD i ((0 : ℚ), ([] : List Cell))).2, cl = Cell.empty :=
  ⟨⟨by decide, by decide, by decide⟩,
   C2_flat_series_amended 70 80 flatPair 50 8 100 (by decide) (by decide)
     (by decide)⟩

/-! ### Claim C4: cell colors -/

/-- Claim C4: every drawn cell is `cellFor` of its row threshold and its
sample's value, and a filled cell is red exactly when the value is at least
the critical threshold, yellow exactly when it is at least the warning
threshold but below critical, and green exactly when it is below warning; in
particular, with thresholds 70/80, a drawn value of exactly 70 is yellow and
a drawn value of exactly 80 is red. -/
theorem C4_cell_colors (w c : ℤ) (l : List Sample) (height length i j : Nat)
    (hl : 2 ≤ l.length) (hi : i < height)
    (hj : j < (takeLast length l).length) :
    ∃ g, create_temperature_graph w c (some l) height length
        = GraphResult.graph g ∧
      (g.rows.getD i ((0 : ℚ), ([] : List Cell))).2.getD j Cell.empty
        = cellFor w c (specRowThreshold l height i)
            (((takeLast length l).getD j (Sample.mk 0 0)).value) ∧
      (∀ (w' c' : ℤ) (thr : ℚ) (v : ℤ),
        (cellFor w' c' thr v = Cell.filled Color.red
          ↔ thr ≤ (v : ℚ) ∧ c' ≤ v) ∧
        (cellFor w' c' thr v = Cell.filled Color.yellow
          ↔ thr ≤ (v : ℚ) ∧ w' ≤ v ∧ v < c') ∧
        (w' ≤ c' → (cellFor w' c' thr v = Cell.filled Color.green
          ↔ thr ≤ (v : ℚ) ∧ v < w')) ∧
        (cellFor w' c' thr v = Cell.empty ↔ ¬ thr ≤ (v : ℚ))) ∧
      (∀ thr : ℚ, thr ≤ (70 : ℚ) →
        cellFor 70 80 thr 70 = Cell.filled Color.yellow) ∧
      (∀ thr : ℚ, thr ≤ (80 : ℚ) →
        cellFor 70 80 thr 80 = Cell.filled Color.red) := by
  refine ⟨_, graph_eq w c l height length hl, ?_, ?_, ?_, ?_⟩
  · rw [GraphData.rows, getD_map_range _ _ _ _ hi]
    show ((takeLast length l).map
        (fun s => cellFor w c (specRowThreshold l height i) s.value)).getD j
        Cell.empty = _
    rw [getD_map_lt _ _ _ _ (Sample.mk 0 0) hj]
  · intro w' c' thr v
    unfold cellFor colorFor
    split_ifs with h1 h2 h3 <;> refine ⟨?_, ?_, ?_, ?_⟩ <;> simp_all <;> omega
  · intro thr hthr
    unfold cellFor colorFor
    rw [if_pos (by exact_mod_cast hthr), if_neg (by norm_num),
      if_pos (by norm_num)]
  · intro thr hthr
    unfold cellFor colorFor
    rw [if_pos (by exact_mod_cast hthr), if_pos (by norm_num)]

/-- Witness for C4 at row 0, column 0 of a concrete graph. -/
theorem C4_cell_colors_witness :
    (2 ≤ samplePair.length ∧ 0 < 8 ∧ 0 < (takeLast 100 samplePair).length) ∧
    ∃ g, create_temperature_graph 70 80 (some samplePair) 8 100
        = GraphResult.graph g ∧
      (g.rows.getD 0 ((0 : ℚ), ([] : List Cell))).2.getD 0 Cell.empty
        = cellFor 70 80 (specRowThreshold samplePair 8 0)
            (((takeLast 100 samplePair).getD 0 (Sample.mk 0 0)).value) ∧
      (∀ (w' c' : ℤ) (thr : ℚ) (v : ℤ),
        (cellFor w' c' thr v = Cell.filled Color.red
          ↔ thr ≤ (v : ℚ) ∧ c' ≤ v) ∧
        (cellFor w' c' thr v = Cell.filled Color.yellow
          ↔ thr ≤ (v : ℚ) ∧ w' ≤ v ∧ v < c') ∧
        (w' ≤ c' → (cellFor w' c' thr v = Cell.filled Color.green
          ↔ thr ≤ (v : ℚ) ∧ v < w')) ∧
        (cellFor w' c' thr v = Cell.empty ↔ ¬ thr ≤ (v : ℚ))) ∧
      (∀ thr : ℚ, thr ≤ (70 : ℚ) →
        cellFor 70 80 thr 70 = Cell.filled Color.yellow) ∧
      (∀ thr : ℚ, thr ≤ (80 : ℚ) →
        cellFor 70 80 thr 80 = Cell.filled Color.red) :=
  ⟨⟨by decide, by decide, by decide⟩,
   C4_cell_colors 70 80 samplePair 8 100 0 0 (by decide) (by decide) (by decide)⟩

end SystemMonitor
